import Mathlib

/-!
# Verification of the GitHub profile scraper (`src/scraper/github_scraper.py`)

A shallow embedding of the scraper's data model and operations, and proofs
about them.  Python dictionaries (insertion-ordered, unique keys) are
embedded as association lists; HTTP interaction is embedded as explicit
environments (oracles) together with a threaded request counter, mirroring
`self._api_requests_count`; fallible operations return `Option`/`Except`.
-/

set_option autoImplicit false

namespace GithubScraper

/-! ## Python dict model

A Python `Dict[str, int]` is an insertion-ordered mapping with unique keys;
we embed it as an association list.  `dictGetD d k v₀` is `d.get(k, v₀)`;
`dictAddAt d k v` is the statement `d[k] = d.get(k, 0) + v`: it updates the
value at the first (for a genuine dict: the only) occurrence of `k`, keeping
its position, or appends `(k, v)` at the end when `k` is absent, exactly the
insertion-order behaviour of dict assignment. -/

abbrev LangMap := List (String × Nat)

/-- Embedding of `d.get(k, v₀)` for a Python dict embedded as an association list. -/
def dictGetD (d : LangMap) (k : String) (v₀ : Nat) : Nat :=
  match d.find? (fun p => p.1 = k) with
  | some p => p.2
  | none => v₀

/-- Embedding of `d[k] = d.get(k, 0) + v` (Python dict update-or-append semantics). -/
def dictAddAt : LangMap → String → Nat → LangMap
  | [], k, v => [(k, v)]
  | p :: rest, k, v =>
    if p.1 = k then (p.1, p.2 + v) :: rest else p :: dictAddAt rest k v

/-- Embedding of `list(d.keys())`: the keys in insertion order. -/
def dictKeys (d : LangMap) : List String := d.map Prod.fst

/-- Embedding of `sum(d.values())`. -/
def dictValuesSum (d : LangMap) : Nat := (d.map Prod.snd).sum

/-- Total bytes recorded under key `k` in `d` (for a genuine dict, with
unique keys, this is the single value stored at `k`, or `0`). -/
def dictKeySum (d : LangMap) (k : String) : Nat :=
  ((d.filter (fun p => p.1 = k)).map Prod.snd).sum

/-! ## Data model (`src/scraper/models.py`) -/

/-- Embedding of `models.Repository`. -/
structure Repository where
  name : String
  about : Option String
  description : Option String
  readme_content : Option String
  languages : LangMap
  url : String
  stars : Nat
  forks : Nat
  is_fork : Bool
  default_branch : String
  deriving Repr, DecidableEq

/-- Embedding of `models.ScrapingStatistics`. -/
structure ScrapingStatistics where
  total_repositories : Nat
  repositories_with_readme : Nat
  total_stars : Nat
  total_forks : Nat
  unique_languages : List String
  language_distribution : LangMap
  deriving Repr, DecidableEq

/-- Python truthiness of an optional string: `None` and `""` are falsy. -/
def pyTruthy : Option String → Bool
  | none => false
  | some s => s ≠ ""

/-! ## `GitHubScraper._calculate_statistics` -/

/-- The `all_languages` accumulation loop of `_calculate_statistics`:
`for repo in repositories: for lang, bytes_count in repo.languages.items():
all_languages[lang] = all_languages.get(lang, 0) + bytes_count`. -/
def aggregate_languages (repositories : List Repository) : LangMap :=
  repositories.foldl
    (fun acc repo => repo.languages.foldl (fun a p => dictAddAt a p.1 p.2) acc) []

/-- Embedding of `GitHubScraper._calculate_statistics`. -/
def calculate_statistics (repositories : List Repository) : ScrapingStatistics :=
  let all_languages := aggregate_languages repositories
  { total_repositories := repositories.length
    repositories_with_readme :=
      repositories.countP (fun repo => pyTruthy repo.readme_content)
    total_stars := (repositories.map Repository.stars).sum
    total_forks := (repositories.map Repository.forks).sum
    unique_languages := dictKeys all_languages
    language_distribution := all_languages }

/-- C1: `_calculate_statistics` returns the length of the input, the count of
repositories with non-empty README text, and the sums of stars and forks. -/
theorem calculate_statistics_totals (repositories : List Repository) :
    (calculate_statistics repositories).total_repositories = repositories.length ∧
    (calculate_statistics repositories).repositories_with_readme =
      (repositories.filter
        (fun repo => repo.readme_content ≠ none ∧ repo.readme_content ≠ some "")).length ∧
    (calculate_statistics repositories).total_stars =
      (repositories.map Repository.stars).sum ∧
    (calculate_statistics repositories).total_forks =
      (repositories.map Repository.forks).sum := by
  refine ⟨rfl, ?_, rfl, rfl⟩
  show repositories.countP (fun repo => pyTruthy repo.readme_content) = _
  rw [List.countP_eq_length_filter]
  congr 1
  apply List.filter_congr
  intro repo _
  cases h : repo.readme_content with
  | none => simp [pyTruthy, h]
  | some s =>
    by_cases hs : s = "" <;> simp [pyTruthy, h, hs]

/-! ## Dict lemmas -/

theorem dictKeys_dictAddAt (d : LangMap) (k : String) (v : Nat) :
    dictKeys (dictAddAt d k v) =
      if k ∈ dictKeys d then dictKeys d else dictKeys d ++ [k] := by
  induction d with
  | nil => simp [dictAddAt, dictKeys]
  | cons p rest ih =>
    simp only [dictKeys] at ih ⊢
    by_cases h : p.1 = k
    · simp [dictAddAt, h]
    · simp only [dictAddAt, if_neg h, List.map_cons]
      rw [ih]
      by_cases hmem : k ∈ rest.map Prod.fst
      · rw [if_pos hmem, if_pos (List.mem_cons_of_mem _ hmem)]
      · rw [if_neg hmem,
          if_neg (fun hc => (List.mem_cons.mp hc).elim (fun he => h he.symm) hmem)]
        simp

theorem dictValuesSum_cons (p : String × Nat) (rest : LangMap) :
    dictValuesSum (p :: rest) = p.2 + dictValuesSum rest := by
  simp [dictValuesSum]

theorem dictValuesSum_dictAddAt (d : LangMap) (k : String) (v : Nat) :
    dictValuesSum (dictAddAt d k v) = dictValuesSum d + v := by
  induction d with
  | nil => simp [dictAddAt, dictValuesSum]
  | cons p rest ih =>
    by_cases h : p.1 = k
    · simp only [dictAddAt, if_pos h, dictValuesSum_cons]
      ring
    · simp only [dictAddAt, if_neg h, dictValuesSum_cons, ih]
      ring

theorem dictKeySum_cons (p : String × Nat) (rest : LangMap) (k : String) :
    dictKeySum (p :: rest) k =
      (if p.1 = k then p.2 else 0) + dictKeySum rest k := by
  by_cases h : p.1 = k <;> simp [dictKeySum, h]

theorem dictKeySum_dictAddAt (d : LangMap) (k k' : String) (v : Nat) :
    dictKeySum (dictAddAt d k v) k' =
      dictKeySum d k' + if k = k' then v else 0 := by
  induction d with
  | nil =>
    simp only [dictAddAt, dictKeySum_cons, dictKeySum, List.filter_nil,
      List.map_nil, List.sum_nil]
    by_cases h : k = k' <;> simp [h]
  | cons p rest ih =>
    by_cases h : p.1 = k
    · simp only [dictAddAt, if_pos h, dictKeySum_cons]
      by_cases h' : k = k'
      · rw [if_pos (h.trans h'), if_pos (h.trans h'), if_pos h']
        ring
      · rw [if_neg (fun hc : p.1 = k' => h' (h.symm.trans hc)),
          if_neg (fun hc : p.1 = k' => h' (h.symm.trans hc)), if_neg h']
        ring
    · simp only [dictAddAt, if_neg h, dictKeySum_cons, ih]
      ring

theorem dictGetD_eq_dictKeySum (d : LangMap) (k : String)
    (h : (dictKeys d).Nodup) : dictGetD d k 0 = dictKeySum d k := by
  induction d with
  | nil => simp [dictGetD, dictKeySum, List.find?]
  | cons p rest ih =>
    simp only [dictKeys, List.map_cons, List.nodup_cons] at h
    by_cases hp : p.1 = k
    · have hres : dictKeySum rest k = 0 := by
        have : rest.filter (fun q => q.1 = k) = [] := by
          apply List.filter_eq_nil_iff.mpr
          intro q hq
          simp only [decide_eq_true_eq]
          intro hqk
          exact h.1 (hp ▸ hqk ▸ List.mem_map_of_mem Prod.fst hq)
        simp [dictKeySum, this]
      simp [dictGetD, dictKeySum_cons, List.find?, hp, hres]
    · have := ih h.2
      simp only [dictGetD, List.find?, decide_eq_true_eq] at this ⊢
      simp [hp, dictKeySum_cons, this]

/-! ## Fold lemmas for `aggregate_languages` -/

/-- One entry-list fold step of the aggregation, on the key lists. -/
theorem dictKeys_foldl_entries (entries : LangMap) :
    ∀ acc : LangMap,
      dictKeys (entries.foldl (fun a p => dictAddAt a p.1 p.2) acc) =
        entries.foldl
          (fun ks p => if p.1 ∈ ks then ks else ks ++ [p.1]) (dictKeys acc) := by
  induction entries with
  | nil => intro acc; rfl
  | cons p rest ih =>
    intro acc
    simp only [List.foldl_cons, ih, dictKeys_dictAddAt]

theorem dictValuesSum_foldl_entries (entries : LangMap) :
    ∀ acc : LangMap,
      dictValuesSum (entries.foldl (fun a p => dictAddAt a p.1 p.2) acc) =
        dictValuesSum acc + dictValuesSum entries := by
  induction entries with
  | nil => intro acc; simp [dictValuesSum]
  | cons p rest ih =>
    intro acc
    rw [List.foldl_cons, ih, dictValuesSum_dictAddAt, dictValuesSum_cons]
    ring

theorem dictKeySum_foldl_entries (entries : LangMap) (k : String) :
    ∀ acc : LangMap,
      dictKeySum (entries.foldl (fun a p => dictAddAt a p.1 p.2) acc) k =
        dictKeySum acc k + dictKeySum entries k := by
  induction entries with
  | nil => intro acc; simp [dictKeySum]
  | cons p rest ih =>
    intro acc
    rw [List.foldl_cons, ih, dictKeySum_dictAddAt, dictKeySum_cons]
    ring

theorem dictKeys_aggregate_foldl (repositories : List Repository) :
    ∀ acc : LangMap,
      dictKeys (repositories.foldl
        (fun a repo => repo.languages.foldl (fun b p => dictAddAt b p.1 p.2) a) acc) =
      repositories.foldl
        (fun ks repo => repo.languages.foldl
          (fun a p => if p.1 ∈ a then a else a ++ [p.1]) ks) (dictKeys acc) := by
  induction repositories with
  | nil => intro acc; rfl
  | cons repo rest ih =>
    intro acc
    simp only [List.foldl_cons, ih, dictKeys_foldl_entries]

theorem dictValuesSum_aggregate_foldl (repositories : List Repository) :
    ∀ acc : LangMap,
      dictValuesSum (repositories.foldl
        (fun a repo => repo.languages.foldl (fun b p => dictAddAt b p.1 p.2) a) acc) =
      dictValuesSum acc + (repositories.map (fun repo => dictValuesSum repo.languages)).sum := by
  induction repositories with
  | nil => intro acc; simp
  | cons repo rest ih =>
    intro acc
    rw [List.foldl_cons, ih, dictValuesSum_foldl_entries, List.map_cons,
      List.sum_cons]
    ring

theorem dictKeySum_aggregate_foldl (repositories : List Repository) (k : String) :
    ∀ acc : LangMap,
      dictKeySum (repositories.foldl
        (fun a repo => repo.languages.foldl (fun b p => dictAddAt b p.1 p.2) a) acc) k =
      dictKeySum acc k + (repositories.map (fun repo => dictKeySum repo.languages k)).sum := by
  induction repositories with
  | nil => intro acc; simp
  | cons repo rest ih =>
    intro acc
    rw [List.foldl_cons, ih, dictKeySum_foldl_entries, List.map_cons,
      List.sum_cons]
    ring

theorem nodup_key_insert (ks : List String) (k : String) (h : ks.Nodup) :
    (if k ∈ ks then ks else ks ++ [k]).Nodup := by
  by_cases hm : k ∈ ks
  · simpa [hm]
  · simp only [if_neg hm]
    refine List.Nodup.append h (List.nodup_singleton k) ?_
    intro a ha
    simp only [List.mem_singleton]
    exact fun he => hm (he ▸ ha)

theorem nodup_dictKeys_foldl_entries (entries : LangMap) :
    ∀ acc : LangMap, (dictKeys acc).Nodup →
      (dictKeys (entries.foldl (fun a p => dictAddAt a p.1 p.2) acc)).Nodup := by
  induction entries with
  | nil => intro acc h; exact h
  | cons p rest ih =>
    intro acc h
    simp only [List.foldl_cons]
    exact ih _ (by rw [dictKeys_dictAddAt]; exact nodup_key_insert _ _ h)

theorem nodup_dictKeys_aggregate (repositories : List Repository) :
    (dictKeys (aggregate_languages repositories)).Nodup := by
  unfold aggregate_languages
  generalize hg : ([] : LangMap) = acc
  have hacc : (dictKeys acc).Nodup := by rw [← hg]; exact List.nodup_nil
  clear hg
  induction repositories generalizing acc with
  | nil => exact hacc
  | cons repo rest ih =>
    simp only [List.foldl_cons]
    exact ih _ (nodup_dictKeys_foldl_entries _ _ hacc)

/-- Spec-side definition: the distinct language names in order of first
appearance, scanning the repositories in order and each repository's
language mapping in its insertion order. -/
def firstSeenLanguages (repositories : List Repository) : List String :=
  repositories.foldl
    (fun ks repo => repo.languages.foldl
      (fun a p => if p.1 ∈ a then a else a ++ [p.1]) ks) []

/-- C7: `unique_languages` is exactly the key list of `language_distribution`
(hence the same set), those keys contain no duplicates, and they appear in
first-seen order over the input. -/
theorem unique_languages_are_distribution_keys (repositories : List Repository) :
    (calculate_statistics repositories).unique_languages =
      dictKeys (calculate_statistics repositories).language_distribution ∧
    (dictKeys (calculate_statistics repositories).language_distribution).Nodup ∧
    (calculate_statistics repositories).unique_languages =
      firstSeenLanguages repositories := by
  refine ⟨rfl, nodup_dictKeys_aggregate repositories, ?_⟩
  show dictKeys (aggregate_languages repositories) = _
  unfold aggregate_languages firstSeenLanguages
  rw [dictKeys_aggregate_foldl]
  rfl

/-- C8: each `language_distribution` entry is the sum of that language's byte
counts across the repositories (each repository's languages being a genuine
dict, its keys are duplicate-free), and the values of `language_distribution`
sum to the total of all per-repository language byte values. -/
theorem language_distribution_sums (repositories : List Repository)
    (h : ∀ repo ∈ repositories, (dictKeys repo.languages).Nodup) :
    (∀ lang, dictGetD (calculate_statistics repositories).language_distribution lang 0 =
      (repositories.map (fun repo => dictGetD repo.languages lang 0)).sum) ∧
    dictValuesSum (calculate_statistics repositories).language_distribution =
      (repositories.map (fun repo => dictValuesSum repo.languages)).sum := by
  constructor
  · intro lang
    have hagg := nodup_dictKeys_aggregate repositories
    show dictGetD (aggregate_languages repositories) lang 0 = _
    rw [dictGetD_eq_dictKeySum _ _ hagg]
    unfold aggregate_languages
    rw [dictKeySum_aggregate_foldl]
    simp only [dictKeySum, List.filter_nil, List.map_nil, List.sum_nil, Nat.zero_add]
    congr 1
    apply List.map_congr_left
    intro repo hrepo
    exact (dictGetD_eq_dictKeySum _ _ (h repo hrepo)).symm
  · show dictValuesSum (aggregate_languages repositories) = _
    unfold aggregate_languages
    rw [dictValuesSum_aggregate_foldl]
    simp [dictValuesSum]

/-- Concrete check for C8 at a two-repository input sharing a language. -/
theorem language_distribution_sums_check :
    dictGetD (calculate_statistics
        [{ name := "a", about := none, description := none, readme_content := none,
           languages := [("Python", 10), ("C", 5)], url := "", stars := 0, forks := 0,
           is_fork := false, default_branch := "main" },
         { name := "b", about := none, description := none, readme_content := none,
           languages := [("Python", 7)], url := "", stars := 0, forks := 0,
           is_fork := false, default_branch := "main" }]).language_distribution
      "Python" 0 = 17 :=
  ((language_distribution_sums _ (by decide)).1 "Python").trans (by decide)

/-! ## HTTP environment

The scraper's network interaction is embedded as an oracle environment:
each logical API request (`_make_api_request` call site) is answered by an
`ApiResult`, carrying the decoded JSON value (`none` for a failed request)
and the number of HTTP dispatches the governor performed for it (`1` plus
any rate-limit retries).  `self._api_requests_count` is threaded through
every operation as an explicit `Nat`, increased by `dispatches` at each
call, mirroring the `self._api_requests_count += 1` executed per dispatch. -/

/-- The fields of the `/users/{username}` JSON that `get_user_profile`
reads (each via `.get`, hence optional). -/
structure UserData where
  name : Option String
  bio : Option String
  company : Option String
  blog : Option String
  twitter_username : Option String
  location : Option String
  email : Option String
  public_repos : Option Nat
  followers : Option Nat
  following : Option Nat
  avatar_url : Option String
  login : Option String
  deriving Repr, DecidableEq

/-- The fields of a repository-listing JSON item that
`get_user_repositories` reads (each via `.get`, hence optional). -/
structure RepoData where
  name : Option String
  description : Option String
  default_branch : Option String
  html_url : Option String
  stargazers_count : Option Nat
  forks_count : Option Nat
  fork : Option Bool
  deriving Repr, DecidableEq

/-- The contents-endpoint JSON as read by `_get_readme_content`: only the
`content` field is consulted (`readme_data.get('content')`). -/
structure ReadmeData where
  content : Option String
  deriving Repr, DecidableEq

/-- The outcome of one logical API request: the decoded value (`none` when
the request ultimately failed) and how many HTTP dispatches it took. -/
structure ApiResult (α : Type) where
  value : Option α
  dispatches : Nat
  deriving Repr, DecidableEq

/-- Oracle environment for one scraping session. -/
structure Env where
  /-- Response of `GET /users/{username}`. -/
  userInfo : ApiResult UserData
  /-- Response of `GET /repos/{user}/{repo}/contents/{candidate}`,
  keyed by repository name and candidate README file name. -/
  readme : String → String → ApiResult ReadmeData
  /-- Outcome of `base64.b64decode(...).decode('utf-8')`: `none` models the decode
  raising, which `_get_readme_content` catches. -/
  decodeContent : String → Option String
  /-- Response of `GET /repos/{user}/{repo}/languages`, keyed by repository
  name. -/
  languages : String → ApiResult LangMap
  /-- Response of `GET /users/{username}/repos?page={n}`, keyed by page
  number. -/
  repoPage : Nat → ApiResult (List RepoData)
  /-- Outcome of `file_handler.save_to_json`: the file path on success, the
  exception text on failure. -/
  saveResult : Except String String
  /-- Value of `datetime.now().isoformat()`. -/
  nowStamp : String

/-! ## `GitHubScraper._get_readme_content` -/

/-- The candidate list tried by `_get_readme_content`. -/
def readme_names : List String :=
  ["README.md", "readme.md", "README.rst", "README.txt", "README"]

/-- The `for readme_name in readme_names` loop of `_get_readme_content`:
fetch the candidate, and if the response carries truthy `content` that
decodes, return it; on a missing response, missing/empty `content`, or a
decode failure, continue with the next candidate. -/
def get_readme_content_loop (env : Env) (repo : String) :
    List String → Nat → Option String × Nat
  | [], c => (none, c)
  | n :: rest, c =>
    match (env.readme repo n).value with
    | none => get_readme_content_loop env repo rest (c + (env.readme repo n).dispatches)
    | some d =>
      match d.content with
      | none => get_readme_content_loop env repo rest (c + (env.readme repo n).dispatches)
      | some content =>
        if content = "" then
          get_readme_content_loop env repo rest (c + (env.readme repo n).dispatches)
        else
          match env.decodeContent content with
          | none =>
            get_readme_content_loop env repo rest (c + (env.readme repo n).dispatches)
          | some decoded => (some decoded, c + (env.readme repo n).dispatches)

/-- Embedding of `GitHubScraper._get_readme_content` (the `default_branch` argument is
never used by the function's body), threading the request counter. -/
def get_readme_content (env : Env) (repo : String) (c : Nat) : Option String × Nat :=
  get_readme_content_loop env repo readme_names c

/-- The outcome of probing a single candidate file name: `some` decoded
content exactly when the response carries truthy `content` that decodes. -/
def tryCandidate (env : Env) (repo n : String) : Option String :=
  match (env.readme repo n).value with
  | none => none
  | some d =>
    match d.content with
    | none => none
    | some content => if content = "" then none else env.decodeContent content

theorem get_readme_content_loop_eq (env : Env) (repo : String) :
    ∀ (names : List String) (c : Nat),
      (get_readme_content_loop env repo names c).1 =
        (names.filterMap (tryCandidate env repo)).head? := by
  intro names
  induction names with
  | nil => intro c; rfl
  | cons n rest ih =>
    intro c
    simp only [get_readme_content_loop, List.filterMap_cons]
    cases hv : (env.readme repo n).value with
    | none => simp [tryCandidate, hv, ih]
    | some d =>
      cases hc : d.content with
      | none => simp [tryCandidate, hv, hc, ih]
      | some content =>
        by_cases he : content = ""
        · simp [tryCandidate, hv, hc, he, ih]
        · cases hd : env.decodeContent content with
          | none => simp [tryCandidate, hv, hc, he, hd, ih]
          | some s => simp [tryCandidate, hv, hc, he, hd]

/-- C3: the README resolver probes exactly `README.md`, `readme.md`,
`README.rst`, `README.txt`, `README` in that order and returns the first
candidate's successfully decoded content (so `README.md` beats `readme.md`);
a decode failure merely moves on to the next candidate, and when no
candidate yields content the result is `none`, not an error. -/
theorem readme_resolver_first_candidate (env : Env) (repo : String) (c : Nat) :
    readme_names = ["README.md", "readme.md", "README.rst", "README.txt", "README"] ∧
    (get_readme_content env repo c).1 =
      (readme_names.filterMap (tryCandidate env repo)).head? ∧
    (∀ s, tryCandidate env repo "README.md" = some s →
      (get_readme_content env repo c).1 = some s) ∧
    ((∀ n ∈ readme_names, tryCandidate env repo n = none) →
      (get_readme_content env repo c).1 = none) := by
  have hchar := get_readme_content_loop_eq env repo readme_names c
  refine ⟨rfl, hchar, ?_, ?_⟩
  · intro s hs
    rw [show (get_readme_content env repo c).1 =
        (readme_names.filterMap (tryCandidate env repo)).head? from hchar]
    simp [readme_names, List.filterMap_cons, hs]
  · intro hnone
    rw [show (get_readme_content env repo c).1 =
        (readme_names.filterMap (tryCandidate env repo)).head? from hchar]
    rw [List.filterMap_eq_nil_iff.mpr hnone]
    rfl

/-- A concrete session in which both `README.md` and `readme.md` carry
decodable content, with distinct decoded texts. -/
def envBothReadmes : Env :=
  { userInfo := ⟨none, 1⟩
    readme := fun _ n =>
      if n = "README.md" then ⟨some ⟨some "QkFTRTY0"⟩, 1⟩
      else if n = "readme.md" then ⟨some ⟨some "T1RIRVI="⟩, 1⟩
      else ⟨none, 1⟩
    decodeContent := fun s =>
      if s = "QkFTRTY0" then some "first content" else some "second content"
    languages := fun _ => ⟨none, 1⟩
    repoPage := fun _ => ⟨none, 1⟩
    saveResult := Except.ok "out.json"
    nowStamp := "" }

theorem readme_resolver_first_candidate_witness :
    (get_readme_content envBothReadmes "r" 0).1 = some "first content" :=
  (readme_resolver_first_candidate envBothReadmes "r" 0).2.2.1 "first content" (by decide)

/-! ## `GitHubScraper._make_api_request` (dispatch level)

For the rate-limit governor we embed `_make_api_request` at the level of
individual HTTP dispatches: the environment is the list of successive
responses the server gives to this request and its retries (an empty list
models the dispatch raising a `RequestException`).  The result carries the
decoded JSON, the list of sleeps performed (in seconds, in order), and the
number of dispatches. -/

/-- One HTTP response as inspected by `_make_api_request`: status code,
whether `'rate limit' in response.text.lower()`, the
`X-RateLimit-Reset` header (`0` when absent), and the parsed JSON body
(`none` when parsing would raise). -/
structure HttpResponse (α : Type) where
  status : Nat
  bodyRateLimited : Bool
  rateLimitReset : Int
  jsonData : Option α
  deriving Repr, DecidableEq

/-- Embedding of `wait_time = max(reset_time - current_time, 60)`. -/
def rate_limit_wait (reset now : Int) : Int := max (reset - now) 60

/-- Embedding of `GitHubScraper._make_api_request` over its successive responses:
a 403 whose body mentions the rate limit sleeps `rate_limit_wait` and
re-issues the identical request; any other 4xx/5xx raises (caught, `None`);
otherwise the JSON body is returned.  Time advances by each sleep. -/
def make_api_request {α : Type} :
    List (HttpResponse α) → Int → Option α × List Int × Nat
  | [], _ => (none, [], 1)
  | r :: rest, now =>
    if r.status = 403 ∧ r.bodyRateLimited = true then
      let w := rate_limit_wait r.rateLimitReset now
      let next := make_api_request rest (now + w)
      (next.1, w :: next.2.1, next.2.2 + 1)
    else if 400 ≤ r.status then (none, [], 1)
    else (r.jsonData, [], 1)

/-- C4: on a 403 response whose body signals the rate limit, the sleep
before the retry is `max(reset_epoch - now, 60)` seconds; a reset header
only `5` seconds in the future still waits the full `60`-second floor. -/
theorem rate_limit_wait_floor {α : Type} (r : HttpResponse α)
    (rest : List (HttpResponse α)) (now : Int)
    (h403 : r.status = 403) (hbody : r.bodyRateLimited = true) :
    (make_api_request (r :: rest) now).2.1.head? =
      some (rate_limit_wait r.rateLimitReset now) ∧
    rate_limit_wait r.rateLimitReset now = max (r.rateLimitReset - now) 60 ∧
    60 ≤ rate_limit_wait r.rateLimitReset now ∧
    (∀ t : Int, rate_limit_wait (t + 5) t = 60) := by
  refine ⟨?_, rfl, le_max_right _ _, ?_⟩
  · simp [make_api_request, h403, hbody]
  · intro t
    unfold rate_limit_wait
    have h5 : t + 5 - t = (5 : Int) := by ring
    rw [h5]
    exact max_eq_right (by norm_num)

theorem rate_limit_wait_floor_witness :
    (make_api_request
        ([{ status := 403, bodyRateLimited := true, rateLimitReset := 65,
            jsonData := none }] : List (HttpResponse Unit)) 60).2.1.head? =
      some 60 :=
  ((rate_limit_wait_floor
      { status := 403, bodyRateLimited := true, rateLimitReset := 65, jsonData := none }
      [] 60 rfl rfl).1).trans (by decide)

/-! ## `GitHubScraper.get_user_repositories` -/

/-- Page size: `per_page = 100`. -/
def per_page : Nat := 100

/-- The per-repository body of the pagination loop: read the item's fields
(with the `.get` defaults of the source), fetch its README and its language
mapping, and build a `Repository`. -/
def process_repo_data (env : Env) (d : RepoData) (c : Nat) : Repository × Nat :=
  let repo_name := d.name.getD ""
  let r := get_readme_content env repo_name c
  ({ name := repo_name
     about := d.description
     description := d.description
     readme_content := r.1
     languages := ((env.languages repo_name).value).getD []
     url := d.html_url.getD ""
     stars := d.stargazers_count.getD 0
     forks := d.forks_count.getD 0
     is_fork := d.fork.getD false
     default_branch := d.default_branch.getD "main" },
   r.2 + (env.languages repo_name).dispatches)

/-- Embedding of `for repo_data in repos_data: ... repositories.append(repository)`. -/
def process_repo_list (env : Env) : List RepoData → Nat → List Repository × Nat
  | [], c => ([], c)
  | d :: rest, c =>
    let p := process_repo_data env d c
    let q := process_repo_list env rest p.2
    (p.1 :: q.1, q.2)

/-- The `while True` pagination loop of `get_user_repositories`, with fuel
bounding the number of unrollings.  Returns the accumulated repositories,
the final request counter, and the number of page requests issued. -/
def get_user_repositories_loop (env : Env) : Nat → Nat → Nat → List Repository × Nat × Nat
  | 0, _, c => ([], c, 0)
  | fuel + 1, page, c =>
    match (env.repoPage page).value with
    | none => ([], c + (env.repoPage page).dispatches, 1)
    | some pageData =>
      if pageData.length = 0 then ([], c + (env.repoPage page).dispatches, 1)
      else
        let pr := process_repo_list env pageData (c + (env.repoPage page).dispatches)
        if pageData.length < per_page then (pr.1, pr.2, 1)
        else
          let next := get_user_repositories_loop env fuel (page + 1) pr.2
          (pr.1 ++ next.1, next.2.1, next.2.2 + 1)

/-- Embedding of `GitHubScraper.get_user_repositories`, starting at `page = 1`. -/
def get_user_repositories (env : Env) (fuel c : Nat) : List Repository × Nat × Nat :=
  get_user_repositories_loop env fuel 1 c

/-- A listing item all of whose optional fields are absent. -/
def blankItem : RepoData :=
  { name := none, description := none, default_branch := none, html_url := none,
    stargazers_count := none, forks_count := none, fork := none }

/-- A session whose repository listing returns `sizes[p-1]` items on page
`p` (and `0` items past the end), every README probe missing and every
language mapping failed. -/
def envPages (sizes : List Nat) : Env :=
  { userInfo := ⟨none, 1⟩
    readme := fun _ _ => ⟨none, 1⟩
    decodeContent := fun _ => none
    languages := fun _ => ⟨none, 1⟩
    repoPage := fun p => ⟨some (List.replicate (sizes.getD (p - 1) 0) blankItem), 1⟩
    saveResult := Except.ok "out.json"
    nowStamp := "" }

theorem loop_page_none (env : Env) (fuel page c : Nat)
    (hv : (env.repoPage page).value = none) :
    get_user_repositories_loop env (fuel + 1) page c =
      ([], c + (env.repoPage page).dispatches, 1) := by
  conv_lhs => rw [get_user_repositories_loop]
  simp [hv]

theorem loop_page_empty (env : Env) (fuel page c : Nat)
    (hv : (env.repoPage page).value = some []) :
    get_user_repositories_loop env (fuel + 1) page c =
      ([], c + (env.repoPage page).dispatches, 1) := by
  conv_lhs => rw [get_user_repositories_loop]
  simp [hv]

theorem loop_page_short (env : Env) (fuel page c : Nat) (d : List RepoData)
    (hv : (env.repoPage page).value = some d) (hne : d ≠ [])
    (hlt : d.length < per_page) :
    get_user_repositories_loop env (fuel + 1) page c =
      ((process_repo_list env d (c + (env.repoPage page).dispatches)).1,
       (process_repo_list env d (c + (env.repoPage page).dispatches)).2, 1) := by
  have hz : ¬ d.length = 0 := by simpa using hne
  conv_lhs => rw [get_user_repositories_loop]
  simp only [hv, if_neg hz, if_pos hlt]

theorem loop_page_full (env : Env) (fuel page c : Nat) (d : List RepoData)
    (hv : (env.repoPage page).value = some d) (hfull : d.length = per_page) :
    get_user_repositories_loop env (fuel + 1) page c =
      ((process_repo_list env d (c + (env.repoPage page).dispatches)).1 ++
         (get_user_repositories_loop env fuel (page + 1)
           (process_repo_list env d (c + (env.repoPage page).dispatches)).2).1,
       (get_user_repositories_loop env fuel (page + 1)
         (process_repo_list env d (c + (env.repoPage page).dispatches)).2).2.1,
       (get_user_repositories_loop env fuel (page + 1)
         (process_repo_list env d (c + (env.repoPage page).dispatches)).2).2.2 + 1) := by
  have hz : ¬ d.length = 0 := by rw [hfull]; simp [per_page]
  have hge : ¬ d.length < per_page := by rw [hfull]; exact lt_irrefl _
  conv_lhs => rw [get_user_repositories_loop]
  simp only [hv, if_neg hz, if_neg hge]

/-- C2: pagination uses the fixed page size `100` and stops exactly on an
empty or short page (a full page always triggers one more fetch); for pages
of sizes `100, 100, 3` it issues `3` page requests and returns `203`
repositories, for `100, 0` it issues `2` and returns `100`. -/
theorem pagination_stops_on_short_page :
    per_page = 100 ∧
    (∀ (env : Env) (fuel page c : Nat), (env.repoPage page).value = some [] →
      get_user_repositories_loop env (fuel + 1) page c =
        ([], c + (env.repoPage page).dispatches, 1)) ∧
    (∀ (env : Env) (fuel page c : Nat) (d : List RepoData),
      (env.repoPage page).value = some d → d ≠ [] → d.length < per_page →
      get_user_repositories_loop env (fuel + 1) page c =
        ((process_repo_list env d (c + (env.repoPage page).dispatches)).1,
         (process_repo_list env d (c + (env.repoPage page).dispatches)).2, 1)) ∧
    (∀ (env : Env) (fuel page c : Nat) (d : List RepoData),
      (env.repoPage page).value = some d → d.length = per_page →
      get_user_repositories_loop env (fuel + 1) page c =
        ((process_repo_list env d (c + (env.repoPage page).dispatches)).1 ++
           (get_user_repositories_loop env fuel (page + 1)
             (process_repo_list env d (c + (env.repoPage page).dispatches)).2).1,
         (get_user_repositories_loop env fuel (page + 1)
           (process_repo_list env d (c + (env.repoPage page).dispatches)).2).2.1,
         (get_user_repositories_loop env fuel (page + 1)
           (process_repo_list env d (c + (env.repoPage page).dispatches)).2).2.2 + 1)) ∧
    (get_user_repositories (envPages [100, 100, 3]) 5 0).1.length = 203 ∧
    (get_user_repositories (envPages [100, 100, 3]) 5 0).2.2 = 3 ∧
    (get_user_repositories (envPages [100, 0]) 5 0).1.length = 100 ∧
    (get_user_repositories (envPages [100, 0]) 5 0).2.2 = 2 := by
  exact ⟨rfl, loop_page_empty, loop_page_short, loop_page_full, rfl, rfl, rfl, rfl⟩

theorem pagination_stops_on_short_page_witness :
    get_user_repositories_loop (envPages [0]) 3 1 0 = ([], 1, 1) := by
  have h := pagination_stops_on_short_page.2.1 (envPages [0]) 2 1 0 (by rfl)
  exact h.trans (by decide)

/-- C10: a failed listing-page request ends pagination exactly like an
empty page would: the loop returns what earlier pages accumulated (nothing
at all when the first page fails), indistinguishably from a user with no
further repositories. -/
theorem pagination_failure_ends_loop :
    (∀ (env : Env) (fuel page c : Nat), (env.repoPage page).value = none →
      get_user_repositories_loop env (fuel + 1) page c =
        ([], c + (env.repoPage page).dispatches, 1)) ∧
    (∀ (env : Env) (fuel page c : Nat), (env.repoPage page).value = none →
      get_user_repositories_loop env (fuel + 1) page c =
        get_user_repositories_loop
          { env with repoPage := fun q =>
              if q = page then ⟨some [], (env.repoPage page).dispatches⟩
              else env.repoPage q }
          (fuel + 1) page c) ∧
    (∀ (env : Env) (fuel page c : Nat) (d : List RepoData),
      (env.repoPage page).value = some d → d.length = per_page →
      (env.repoPage (page + 1)).value = none →
      get_user_repositories_loop env (fuel + 2) page c =
        ((process_repo_list env d (c + (env.repoPage page).dispatches)).1,
         (process_repo_list env d (c + (env.repoPage page).dispatches)).2 +
           (env.repoPage (page + 1)).dispatches, 2)) := by
  refine ⟨loop_page_none, ?_, ?_⟩
  · intro env fuel page c hv
    rw [loop_page_none env fuel page c hv]
    rw [loop_page_empty _ fuel page c (by simp)]
    simp
  · intro env fuel page c d hv hfull hnext
    rw [show fuel + 2 = (fuel + 1) + 1 from rfl,
      loop_page_full env (fuel + 1) page c d hv hfull,
      loop_page_none env fuel (page + 1) _ hnext]
    simp

/-- A session whose very first listing-page request fails. -/
def envFirstPageFails : Env :=
  { userInfo := ⟨none, 1⟩
    readme := fun _ _ => ⟨none, 1⟩
    decodeContent := fun _ => none
    languages := fun _ => ⟨none, 1⟩
    repoPage := fun _ => ⟨none, 1⟩
    saveResult := Except.ok "out.json"
    nowStamp := "" }

theorem pagination_failure_ends_loop_witness :
    get_user_repositories envFirstPageFails 7 0 = ([], 1, 1) := by
  have h := pagination_failure_ends_loop.1 envFirstPageFails 6 1 0 (by rfl)
  exact h.trans (by decide)

/-! ## `GitHubScraper.get_user_profile` and `scrape_user_complete` -/

/-- Embedding of `models.UserProfile`. -/
structure UserProfile where
  name : Option String
  bio : Option String
  company : Option String
  website : Option String
  twitter : Option String
  location : Option String
  email : Option String
  public_repos : Nat
  followers : Nat
  following : Nat
  profile_readme : Option String
  avatar_url : Option String
  login : String
  deriving Repr, DecidableEq

/-- Embedding of `models.ScrapingMetadata`. -/
structure ScrapingMetadata where
  scraped_at : String
  scraper_version : String
  total_api_requests : Nat
  saved_to_file : Option String := none
  save_error : Option String := none
  deriving Repr, DecidableEq

/-- Embedding of `models.CompleteUserData`. -/
structure CompleteUserData where
  profile : UserProfile
  repositories : List Repository
  statistics : ScrapingStatistics
  metadata : ScrapingMetadata
  deriving Repr, DecidableEq

/-- Embedding of `GitHubScraper.get_user_profile`: fetch the user info; on failure
return `None` (no partial profile); on success fetch the profile README
from the `username/username` repository and populate every field (with the
source's `.get` defaults and the falsy-guarded Twitter URL). -/
def get_user_profile (env : Env) (username : String) (c : Nat) :
    Option UserProfile × Nat :=
  let c1 := c + env.userInfo.dispatches
  match env.userInfo.value with
  | none => (none, c1)
  | some u =>
    let pr := get_readme_content env username c1
    (some { name := u.name
            bio := u.bio
            company := u.company
            website := u.blog
            twitter :=
              match u.twitter_username with
              | none => none
              | some t => if t = "" then none else some ("https://twitter.com/" ++ t)
            location := u.location
            email := u.email
            public_repos := u.public_repos.getD 0
            followers := u.followers.getD 0
            following := u.following.getD 0
            profile_readme := pr.1
            avatar_url := u.avatar_url
            login := u.login.getD username }, pr.2)

/-- Embedding of `GitHubScraper.scrape_user_complete`: profile (raising on failure),
repositories, statistics, metadata reading the request counter, then the
optional save step whose failure is recorded in the metadata only.
Returns the result together with the scraper's final request counter. -/
def scrape_user_complete (env : Env) (username : String)
    (save_to_file : Option Bool) (self_save_to_file : Bool) (fuel c : Nat) :
    Except String (CompleteUserData × Nat) :=
  let p := get_user_profile env username c
  match p.1 with
  | none => Except.error ("Failed to fetch profile for: " ++ username)
  | some profile =>
    let r := get_user_repositories env fuel p.2
    let statistics := calculate_statistics r.1
    let metadata : ScrapingMetadata :=
      { scraped_at := env.nowStamp
        scraper_version := "1.0.0"
        total_api_requests := r.2.1 }
    let complete_data : CompleteUserData :=
      { profile := profile, repositories := r.1, statistics := statistics,
        metadata := metadata }
    let should_save := save_to_file.getD self_save_to_file
    if should_save then
      match env.saveResult with
      | Except.ok filepath =>
        Except.ok ({ complete_data with
          metadata := { metadata with saved_to_file := some filepath } }, r.2.1)
      | Except.error e =>
        Except.ok ({ complete_data with
          metadata := { metadata with save_error := some e } }, r.2.1)
    else
      Except.ok (complete_data, r.2.1)

/-- C5: `get_user_profile` returns `None` exactly when the user-info call
fails (never a partial profile), in which case `scrape_user_complete`
raises to its caller; whenever the user-info call succeeds the scrape
returns a result — no other failure propagates. -/
theorem profile_failure_is_fatal (env : Env) (username : String)
    (save_to_file : Option Bool) (self_save_to_file : Bool) (fuel c : Nat) :
    ((get_user_profile env username c).1 = none ↔ env.userInfo.value = none) ∧
    (env.userInfo.value = none →
      scrape_user_complete env username save_to_file self_save_to_file fuel c =
        Except.error ("Failed to fetch profile for: " ++ username)) ∧
    (∀ u, env.userInfo.value = some u →
      ∃ d, scrape_user_complete env username save_to_file self_save_to_file fuel c =
        Except.ok d) := by
  refine ⟨?_, ?_, ?_⟩
  · cases hv : env.userInfo.value with
    | none => simp [get_user_profile, hv]
    | some u => simp [get_user_profile, hv]
  · intro hv
    simp [scrape_user_complete, get_user_profile, hv]
  · intro u hv
    simp only [scrape_user_complete, get_user_profile, hv]
    by_cases hs : save_to_file.getD self_save_to_file
    · rw [if_pos hs]
      cases env.saveResult with
      | ok filepath => exact ⟨_, rfl⟩
      | error e => exact ⟨_, rfl⟩
    · rw [if_neg hs]
      exact ⟨_, rfl⟩

theorem profile_failure_is_fatal_witness :
    scrape_user_complete envFirstPageFails "alice" none true 3 0 =
      Except.error ("Failed to fetch profile for: " ++ "alice") :=
  (profile_failure_is_fatal envFirstPageFails "alice" none true 3 0).2.1 rfl

/-! ## The save step influences nothing but the metadata

Congruence lemmas: every scraping operation is unchanged when only
`saveResult` differs in the environment. -/

theorem get_readme_content_loop_setSave (env : Env) (sv : Except String String)
    (repo : String) : ∀ (names : List String) (c : Nat),
    get_readme_content_loop { env with saveResult := sv } repo names c =
      get_readme_content_loop env repo names c := by
  intro names
  induction names with
  | nil => intro c; rfl
  | cons n rest ih =>
    intro c
    simp only [get_readme_content_loop]
    cases hv : (env.readme repo n).value with
    | none => simp [hv, ih]
    | some d =>
      cases hc : d.content with
      | none => simp [hv, hc, ih]
      | some content =>
        by_cases he : content = ""
        · simp [hv, hc, he, ih]
        · cases hd : env.decodeContent content with
          | none => simp [hv, hc, he, hd, ih]
          | some s => simp [hv, hc, he, hd]

theorem get_readme_content_setSave (env : Env) (sv : Except String String)
    (repo : String) (c : Nat) :
    get_readme_content { env with saveResult := sv } repo c =
      get_readme_content env repo c :=
  get_readme_content_loop_setSave env sv repo readme_names c

theorem process_repo_data_setSave (env : Env) (sv : Except String String)
    (d : RepoData) (c : Nat) :
    process_repo_data { env with saveResult := sv } d c =
      process_repo_data env d c := by
  simp only [process_repo_data, get_readme_content_setSave]

theorem process_repo_list_setSave (env : Env) (sv : Except String String) :
    ∀ (ds : List RepoData) (c : Nat),
    process_repo_list { env with saveResult := sv } ds c =
      process_repo_list env ds c := by
  intro ds
  induction ds with
  | nil => intro c; rfl
  | cons d rest ih =>
    intro c
    simp only [process_repo_list, process_repo_data_setSave, ih]

theorem get_user_repositories_loop_setSave (env : Env) (sv : Except String String) :
    ∀ (fuel page c : Nat),
    get_user_repositories_loop { env with saveResult := sv } fuel page c =
      get_user_repositories_loop env fuel page c := by
  intro fuel
  induction fuel with
  | zero => intro page c; rfl
  | succ n ih =>
    intro page c
    simp only [get_user_repositories_loop]
    cases hv : (env.repoPage page).value with
    | none => simp [hv]
    | some pageData =>
      simp only [hv, process_repo_list_setSave, ih]

theorem get_user_profile_setSave (env : Env) (sv : Except String String)
    (username : String) (c : Nat) :
    get_user_profile { env with saveResult := sv } username c =
      get_user_profile env username c := by
  simp only [get_user_profile, get_readme_content_setSave]

/-- C6: when the save step fails, the returned aggregate records the error
in `metadata.save_error`, leaves `metadata.saved_to_file` unset, and its
profile, repositories, statistics — and all other metadata fields — are
exactly those of the run in which saving succeeds. -/
theorem save_failure_isolated (env : Env) (username : String)
    (save_to_file : Option Bool) (self_save_to_file : Bool) (fuel c : Nat)
    (u : UserData) (hu : env.userInfo.value = some u)
    (e path : String) (he : env.saveResult = Except.error e)
    (hs : save_to_file.getD self_save_to_file = true) :
    ∃ d dok : CompleteUserData × Nat,
      scrape_user_complete env username save_to_file self_save_to_file fuel c =
        Except.ok d ∧
      scrape_user_complete { env with saveResult := Except.ok path } username
        save_to_file self_save_to_file fuel c = Except.ok dok ∧
      d.1.metadata.save_error = some e ∧
      d.1.metadata.saved_to_file = none ∧
      dok.1.metadata.saved_to_file = some path ∧
      d.1.profile = dok.1.profile ∧
      d.1.repositories = dok.1.repositories ∧
      d.1.statistics = dok.1.statistics ∧
      d.1.metadata.scraped_at = dok.1.metadata.scraped_at ∧
      d.1.metadata.scraper_version = dok.1.metadata.scraper_version ∧
      d.1.metadata.total_api_requests = dok.1.metadata.total_api_requests ∧
      d.2 = dok.2 := by
  simp only [scrape_user_complete, get_user_profile_setSave, get_user_profile, hu,
    get_user_repositories, get_user_repositories_loop_setSave,
    get_readme_content_setSave, hs, if_true, he]
  exact ⟨_, _, rfl, rfl, rfl, rfl, rfl, rfl, rfl, rfl, rfl, rfl, rfl, rfl⟩

/-- A user-info JSON all of whose optional fields are absent. -/
def blankUser : UserData :=
  { name := none, bio := none, company := none, blog := none,
    twitter_username := none, location := none, email := none,
    public_repos := none, followers := none, following := none,
    avatar_url := none, login := none }

/-- A session with a fetchable profile, no repositories, and a failing
save step. -/
def envSaveFails : Env :=
  { userInfo := ⟨some blankUser, 1⟩
    readme := fun _ _ => ⟨none, 1⟩
    decodeContent := fun _ => none
    languages := fun _ => ⟨none, 1⟩
    repoPage := fun _ => ⟨some [], 1⟩
    saveResult := Except.error "disk full"
    nowStamp := "2025-01-01T00:00:00" }

theorem save_failure_isolated_witness :
    (scrape_user_complete envSaveFails "u" none true 1 0).toOption.map
      (fun d => (d.1.metadata.save_error, d.1.metadata.saved_to_file)) =
      some (some "disk full", none) := by
  obtain ⟨d, dok, hd, hdok, he1, he2, hrest⟩ :=
    save_failure_isolated envSaveFails "u" none true 1 0 blankUser rfl
      "disk full" "p.json" rfl rfl
  simp [hd]
  exact ⟨d.1, ⟨d.2, rfl⟩, he1, he2⟩

/-! ## The request counter

`self._api_requests_count` is set to `0` in `__init__` and only ever
incremented; `scrape_user_complete` copies its current value into
`metadata.total_api_requests`.  The shift lemmas below show each operation
adds a start-independent number of dispatches to the counter. -/

theorem get_readme_content_loop_shift (env : Env) (repo : String) :
    ∀ (names : List String) (c k : Nat),
      get_readme_content_loop env repo names (c + k) =
        ((get_readme_content_loop env repo names k).1,
         c + (get_readme_content_loop env repo names k).2) := by
  intro names
  induction names with
  | nil => intro c k; rfl
  | cons n rest ih =>
    intro c k
    simp only [get_readme_content_loop]
    cases hv : (env.readme repo n).value with
    | none => simp [hv, Nat.add_assoc, ih]
    | some d =>
      cases hc : d.content with
      | none => simp [hv, hc, Nat.add_assoc, ih]
      | some content =>
        by_cases he : content = ""
        · simp [hv, hc, he, Nat.add_assoc, ih]
        · cases hd : env.decodeContent content with
          | none => simp [hv, hc, he, hd, Nat.add_assoc, ih]
          | some s => simp [hv, hc, he, hd, Nat.add_assoc]

theorem process_repo_data_shift (env : Env) (d : RepoData) (c k : Nat) :
    process_repo_data env d (c + k) =
      ((process_repo_data env d k).1, c + (process_repo_data env d k).2) := by
  simp only [process_repo_data, get_readme_content, get_readme_content_loop_shift,
    Nat.add_assoc]

theorem process_repo_list_shift (env : Env) :
    ∀ (ds : List RepoData) (c k : Nat),
      process_repo_list env ds (c + k) =
        ((process_repo_list env ds k).1, c + (process_repo_list env ds k).2) := by
  intro ds
  induction ds with
  | nil => intro c k; rfl
  | cons d rest ih =>
    intro c k
    simp only [process_repo_list, process_repo_data_shift, ih]

theorem get_user_repositories_loop_shift (env : Env) :
    ∀ (fuel page c k : Nat),
      get_user_repositories_loop env fuel page (c + k) =
        ((get_user_repositories_loop env fuel page k).1,
         c + (get_user_repositories_loop env fuel page k).2.1,
         (get_user_repositories_loop env fuel page k).2.2) := by
  intro fuel
  induction fuel with
  | zero => intro page c k; rfl
  | succ n ih =>
    intro page c k
    simp only [get_user_repositories_loop]
    cases hv : (env.repoPage page).value with
    | none => simp [hv, Nat.add_assoc]
    | some pd =>
      by_cases hz : pd.length = 0
      · simp [hv, hz, Nat.add_assoc]
      · by_cases hlt : pd.length < per_page
        · simp [hv, hz, hlt, Nat.add_assoc, process_repo_list_shift]
        · simp [hv, hz, hlt, Nat.add_assoc, process_repo_list_shift, ih]

theorem get_user_profile_shift (env : Env) (username : String) (c k : Nat) :
    get_user_profile env username (c + k) =
      ((get_user_profile env username k).1,
       c + (get_user_profile env username k).2) := by
  simp only [get_user_profile]
  cases hv : env.userInfo.value with
  | none => simp [hv, Nat.add_assoc]
  | some u =>
    simp [hv, get_readme_content, Nat.add_assoc, get_readme_content_loop_shift]

/-- The number of HTTP dispatches one `scrape_user_complete` run performs:
the final value of the request counter for a run started at counter `0`
(user info, profile README probes, listing pages, per-repository probes). -/
def run_api_requests (env : Env) (username : String) (fuel : Nat) : Nat :=
  (get_user_repositories env fuel (get_user_profile env username 0).2).2.1

/-- C9 (amended): `metadata.total_api_requests` equals the scraper's
cumulative request counter — the counter at the start of the run plus the
dispatches of this run.  It equals the calls of the producing run alone
only when the counter starts at `0` (a fresh scraper instance). -/
theorem total_api_requests_cumulative (env : Env) (username : String)
    (save_to_file : Option Bool) (self_save_to_file : Bool) (fuel c : Nat)
    (data : CompleteUserData) (c' : Nat)
    (h : scrape_user_complete env username save_to_file self_save_to_file fuel c =
      Except.ok (data, c')) :
    data.metadata.total_api_requests = c' ∧
    c' = c + run_api_requests env username fuel := by
  have h0 := get_user_profile_shift env username c 0
  rw [Nat.add_zero] at h0
  have hp2 : (get_user_profile env username c).2 =
      c + (get_user_profile env username 0).2 := by rw [h0]
  have hr : (get_user_repositories env fuel (get_user_profile env username c).2).2.1 =
      c + run_api_requests env username fuel := by
    rw [hp2]
    show (get_user_repositories_loop env fuel 1 (c + (get_user_profile env username 0).2)).2.1 = _
    rw [get_user_repositories_loop_shift]
    rfl
  simp only [scrape_user_complete] at h
  cases hv : (get_user_profile env username c).1 with
  | none => simp only [hv] at h; exact absurd h (by simp)
  | some profile =>
    simp only [hv] at h
    by_cases hs : save_to_file.getD self_save_to_file
    · rw [if_pos hs] at h
      cases hsr : env.saveResult with
      | ok filepath =>
        simp only [hsr] at h
        rw [Except.ok.injEq, Prod.mk.injEq] at h
        refine ⟨?_, h.2 ▸ hr⟩
        rw [← h.1, ← h.2]
      | error e =>
        simp only [hsr] at h
        rw [Except.ok.injEq, Prod.mk.injEq] at h
        refine ⟨?_, h.2 ▸ hr⟩
        rw [← h.1, ← h.2]
    · rw [if_neg hs] at h
      rw [Except.ok.injEq, Prod.mk.injEq] at h
      refine ⟨?_, h.2 ▸ hr⟩
      rw [← h.1, ← h.2]

/-- A session with a fetchable profile and nothing else; one run dispatches
exactly 7 requests (1 user info, 5 profile-README probes, 1 listing page). -/
def envTwoRuns : Env :=
  { userInfo := ⟨some blankUser, 1⟩
    readme := fun _ _ => ⟨none, 1⟩
    decodeContent := fun _ => none
    languages := fun _ => ⟨none, 1⟩
    repoPage := fun _ => ⟨none, 1⟩
    saveResult := Except.ok "out.json"
    nowStamp := "" }

/-- The `total_api_requests` a successful run reports. -/
def scrapeTotalRequests (env : Env) (username : String)
    (save_to_file : Option Bool) (self_save_to_file : Bool) (fuel c : Nat) :
    Option Nat :=
  match scrape_user_complete env username save_to_file self_save_to_file fuel c with
  | Except.ok (d, _) => some d.metadata.total_api_requests
  | Except.error _ => none

/-- The scraper's request counter after a successful run. -/
def scrapeFinalCounter (env : Env) (username : String)
    (save_to_file : Option Bool) (self_save_to_file : Bool) (fuel c : Nat) :
    Option Nat :=
  match scrape_user_complete env username save_to_file self_save_to_file fuel c with
  | Except.ok (_, c') => some c'
  | Except.error _ => none

/-- C9 (counterexample): the counter is never reset between runs, so a
second identical run on the same scraper dispatches 7 calls of its own yet
reports `total_api_requests = 14`. -/
theorem total_api_requests_counterexample :
    run_api_requests envTwoRuns "u" 1 = 7 ∧
    scrapeFinalCounter envTwoRuns "u" none true 1 0 = some 7 ∧
    scrapeTotalRequests envTwoRuns "u" none true 1 7 = some 14 ∧
    (14 : Nat) ≠ 7 :=
  ⟨rfl, rfl, rfl, by decide⟩

theorem total_api_requests_cumulative_witness :
    scrapeTotalRequests envTwoRuns "u" none true 1 7 =
      some (7 + run_api_requests envTwoRuns "u" 1) := by
  obtain ⟨p, h⟩ :
      ∃ p, scrape_user_complete envTwoRuns "u" none true 1 7 = Except.ok p :=
    ⟨_, rfl⟩
  obtain ⟨d, c'⟩ := p
  have h2 := total_api_requests_cumulative envTwoRuns "u" none true 1 7 d c' h
  unfold scrapeTotalRequests
  rw [h]
  show some d.metadata.total_api_requests = _
  rw [h2.1, h2.2]

end GithubScraper
